import Mathlib

/-!
Verification of the batching and addressing engine of
`tools/vfvs_prepare_workunits.py` (VFVS).

The Python source is shallowly embedded below: pure functions become Lean
functions, the manifest-processing loop becomes a fold over an explicit
state record, machine integers become `Nat`
(counts and thresholds in the program are non-negative integers), and
fallible paths (`exit(1)`, uncaught `ValueError`/`NameError`) become
`Except`.  Strings are modelled with Lean `String`; Python slices operate
per character, which coincides with the source's byte slicing because the
sliced strings (hex digests, tranche prefixes) are ASCII.
-/

/-! ## Python string primitives used by the source -/

/-- Python slice `s[a:b]` on a string, by characters. -/
def pySlice (s : String) (a b : Nat) : String :=
  String.mk ((s.data.drop a).take (b - a))

/-- Python `"/".join(parts)`. -/
def joinPath : List String → String
  | [] => ""
  | [x] => x
  | x :: y :: xs => x ++ "/" ++ joinPath (y :: xs)

/-- Python `int(s)` for a string of decimal digits (the only shape the
manifest and config supply; exotic `int()` inputs are out of scope). -/
def pyIntDigits (s : String) : Nat :=
  s.data.foldl (fun a c => a * 10 + (c.toNat - 48)) 0

/-- Split a character list at the first occurrence of a separator. -/
def splitOnceChar (sep : Char) : List Char → Option (List Char × List Char)
  | [] => none
  | c :: cs =>
    if c = sep then some ([], cs)
    else
      match splitOnceChar sep cs with
      | none => none
      | some (a, b) => some (c :: a, b)

/-- Python `s.split(sep, 1)` for the single-character separator the
source uses: `some (before, after)` when `sep` occurs in `s`, `none` when
it does not (in which case the source's 2-element unpack raises
`ValueError`). -/
def splitFirstRest (sep : Char) (s : String) : Option (String × String) :=
  match splitOnceChar sep s.data with
  | none => none
  | some (a, b) => some (String.mk a, String.mk b)

/-! ## SHA-256 (`hashlib.sha256(...).hexdigest()`)

The source hashes UTF-8 strings with SHA-256 and uses the lowercase hex
digest.  We embed the full FIPS 180-4 algorithm over byte lists, with
32-bit words as `Nat` reduced mod `2^32`. -/

/-- Reduce to a 32-bit word. -/
def u32 (n : Nat) : Nat := n % 4294967296

/-- 32-bit right rotation. -/
def rotr32 (n x : Nat) : Nat := u32 ((x >>> n) ||| (x <<< (32 - n)))

def sha256Ch (x y z : Nat) : Nat := (x &&& y) ^^^ ((x ^^^ 4294967295) &&& z)

def sha256Maj (x y z : Nat) : Nat := (x &&& y) ^^^ (x &&& z) ^^^ (y &&& z)

def sha256S0 (x : Nat) : Nat := rotr32 2 x ^^^ rotr32 13 x ^^^ rotr32 22 x

def sha256S1 (x : Nat) : Nat := rotr32 6 x ^^^ rotr32 11 x ^^^ rotr32 25 x

def sha256s0 (x : Nat) : Nat := rotr32 7 x ^^^ rotr32 18 x ^^^ (x >>> 3)

def sha256s1 (x : Nat) : Nat := rotr32 17 x ^^^ rotr32 19 x ^^^ (x >>> 10)

/-- SHA-256 round constants (fractional parts of cube roots of the first
64 primes). -/
def sha256K : List Nat :=
  [1116352408, 1899447441, 3049323471, 3921009573, 961987163, 1508970993,
   2453635748, 2870763221, 3624381080, 310598401, 607225278, 1426881987,
   1925078388, 2162078206, 2614888103, 3248222580, 3835390401, 4022224774,
   264347078, 604807628, 770255983, 1249150122, 1555081692, 1996064986,
   2554220882, 2821834349, 2952996808, 3210313671, 3336571891, 3584528711,
   113926993, 338241895, 666307205, 773529912, 1294757372, 1396182291,
   1695183700, 1986661051, 2177026350, 2456956037, 2730485921, 2820302411,
   3259730800, 3345764771, 3516065817, 3600352804, 4094571909, 275423344,
   430227734, 506948616, 659060556, 883997877, 958139571, 1322822218,
   1537002063, 1747873779, 1955562222, 2024104815, 2227730452, 2361852424,
   2428436474, 2756734187, 3204031479, 3329325298]

/-- Working state: eight 32-bit hash words. -/
structure Sha256State where
  a : Nat
  b : Nat
  c : Nat
  d : Nat
  e : Nat
  f : Nat
  g : Nat
  h : Nat
  deriving Repr, DecidableEq

/-- SHA-256 initial hash value (fractional parts of square roots of the
first 8 primes). -/
def sha256Init : Sha256State :=
  ⟨1779033703, 3144134277, 1013904242, 2773480762,
   1359893119, 2600822924, 528734635, 1541459225⟩

/-- Append the SHA-256 padding to a byte message: `0x80`, zero bytes to 56
mod 64, then the bit length as 8 big-endian bytes. -/
def sha256Pad (msg : List Nat) : List Nat :=
  let bitLen := msg.length * 8
  let zeros := (119 - msg.length % 64) % 64
  msg ++ [128] ++ List.replicate zeros 0
      ++ (List.range 8).map (fun i => (bitLen >>> (8 * (7 - i))) % 256)

/-- Split a byte list into 64-byte blocks (structural recursion on a fuel
argument so that the definition reduces in the kernel; `l.length` fuel is
always enough because every step drops at least one element). -/
def chunks64Aux : Nat → List Nat → List (List Nat)
  | 0, _ => []
  | _ + 1, [] => []
  | fuel + 1, l => l.take 64 :: chunks64Aux fuel (l.drop 64)

/-- Split a byte list into 64-byte blocks. -/
def chunks64 (l : List Nat) : List (List Nat) :=
  chunks64Aux l.length l

/-- The 16 big-endian 32-bit words of one 64-byte block. -/
def blockWords (block : List Nat) : List Nat :=
  (List.range 16).map fun i =>
    block.getD (4 * i) 0 * 16777216 + block.getD (4 * i + 1) 0 * 65536 +
    block.getD (4 * i + 2) 0 * 256 + block.getD (4 * i + 3) 0

/-- Extend the 16 message words to the 64-entry message schedule. -/
def sha256Schedule (block : List Nat) : List Nat :=
  (List.range 48).foldl
    (fun w _ =>
      let n := w.length
      w ++ [u32 (sha256s1 (w.getD (n - 2) 0) + w.getD (n - 7) 0 +
                 sha256s0 (w.getD (n - 15) 0) + w.getD (n - 16) 0)])
    (blockWords block)

/-- One SHA-256 compression round. -/
def sha256Round (st : Sha256State) (wk : Nat × Nat) : Sha256State :=
  let t1 := st.h + sha256S1 st.e + sha256Ch st.e st.f st.g + wk.2 + wk.1
  let t2 := sha256S0 st.a + sha256Maj st.a st.b st.c
  ⟨u32 (t1 + t2), st.a, st.b, st.c, u32 (st.d + t1), st.e, st.f, st.g⟩

/-- Compress one 64-byte block into the running hash state. -/
def sha256Compress (st : Sha256State) (block : List Nat) : Sha256State :=
  let w := sha256Schedule block
  let r := ((w.zip sha256K).foldl sha256Round st)
  ⟨u32 (st.a + r.a), u32 (st.b + r.b), u32 (st.c + r.c), u32 (st.d + r.d),
   u32 (st.e + r.e), u32 (st.f + r.f), u32 (st.g + r.g), u32 (st.h + r.h)⟩

/-- The eight 32-bit digest words of a byte message. -/
def sha256Words (msg : List Nat) : List Nat :=
  let st := (chunks64 (sha256Pad msg)).foldl sha256Compress sha256Init
  [st.a, st.b, st.c, st.d, st.e, st.f, st.g, st.h]

/-- Lowercase hex digit. -/
def hexChar (n : Nat) : Char :=
  if n < 10 then Char.ofNat (48 + n) else Char.ofNat (87 + n)

/-- A 32-bit word as 8 lowercase hex characters. -/
def wordToHex (x : Nat) : List Char :=
  (List.range 8).map fun i => hexChar ((x >>> (4 * (7 - i))) % 16)

/-- UTF-8 encoding of one Unicode code point. -/
def utf8EncodeChar (c : Nat) : List Nat :=
  if c < 128 then [c]
  else if c < 2048 then [192 + c / 64, 128 + c % 64]
  else if c < 65536 then [224 + c / 4096, 128 + c / 64 % 64, 128 + c % 64]
  else [240 + c / 262144, 128 + c / 4096 % 64, 128 + c / 64 % 64, 128 + c % 64]

/-- UTF-8 bytes of a string (Python `s.encode()`). -/
def utf8Encode (s : String) : List Nat :=
  (s.data.map (fun c => utf8EncodeChar c.toNat)).flatten

/-- `hashlib.sha256(s.encode()).hexdigest()`: the lowercase 64-character
hex SHA-256 digest of the UTF-8 encoding of `s`. -/
def sha256hex (s : String) : String :=
  String.mk (((sha256Words (utf8Encode s)).map wordToHex).flatten)

/-! ## Addressing functions of the source -/

/-- `get_formatted_collection_number`: `f"{int(n):07}"`, i.e. the decimal
representation of `n` left-padded with zeros to at least 7 digits.  The
`int()` normalisation is reflected in the `Nat` argument type; callers
that hold a digit string apply `pyIntDigits` first, exactly where the
source applies `int()`. -/
def get_formatted_collection_number (collection_number : Nat) : String :=
  String.mk (List.replicate (7 - (Nat.repr collection_number).length) '0')
    ++ Nat.repr collection_number

/-- `get_collection_hash`: SHA-256 hex digest of
`f"{collection_name}/{formatted_collection_number}"`. -/
def get_collection_hash (collection_name : String) (collection_number : Nat) :
    String :=
  sha256hex (collection_name ++ "/" ++
    get_formatted_collection_number collection_number)

/-- The configuration keys consumed by the engine (`ctx['config']`).
Integer-valued keys are stored as the `Nat` their `int()` parse yields;
everything else is the raw string. -/
structure Config where
  ligandsTodoPerQueue : Nat
  batchsystem : String
  awsBatchArrayJobSize : Nat
  slurmArrayJobSize : Nat
  jobStorageMode : String
  objectStoreJobAddressingMode : String
  objectStoreJobPrefixCfg : String
  objectStoreJobPrefixFull : String
  jobLetter : String
  objectStoreDataBucket : String
  objectStoreDataCollectionAddressingMode : String
  objectStoreDataCollectionPrefixCfg : String
  objectStoreDataCollectionIdentifier : String
  ligandLibraryFormat : String
  sharedfsCollectionPath : String
  sharedfsWorkunitPath : String
  deriving Repr, DecidableEq

/-- `gen_s3_download_path`: object key for a collection archive, either
hash-sharded or meta-tranche based. -/
def gen_s3_download_path (cfg : Config) (tranche collection_name
    collection_number : String) : String :=
  if cfg.objectStoreDataCollectionAddressingMode = "hash" then
    let format_type := cfg.ligandLibraryFormat
    let hash_string := get_collection_hash collection_name
      (pyIntDigits collection_number)
    let remote_dir :=
      if cfg.objectStoreDataCollectionIdentifier ≠ "" then
        [cfg.objectStoreDataCollectionPrefixCfg,
         pySlice hash_string 0 2, pySlice hash_string 2 4,
         cfg.objectStoreDataCollectionIdentifier, format_type,
         collection_name]
      else
        [cfg.objectStoreDataCollectionPrefixCfg,
         pySlice hash_string 0 2, pySlice hash_string 2 4,
         format_type, collection_name]
    joinPath remote_dir ++ "/" ++
      (get_formatted_collection_number (pyIntDigits collection_number)
        ++ ".tar.gz")
  else
    joinPath [cfg.objectStoreDataCollectionPrefixCfg, tranche,
      collection_name, collection_number ++ ".tar.gz"]

/-- `gen_sharedfs_path`: shared-filesystem path for a collection archive,
either hash-sharded or meta-tranche based. -/
def gen_sharedfs_path (cfg : Config) (tranche collection_name
    collection_number : String) : String :=
  if cfg.objectStoreDataCollectionAddressingMode = "hash" then
    let format_type := cfg.ligandLibraryFormat
    let hash_string := get_collection_hash collection_name
      (pyIntDigits collection_number)
    let remote_dir :=
      if cfg.objectStoreDataCollectionIdentifier ≠ "" then
        [cfg.sharedfsCollectionPath,
         pySlice hash_string 0 2, pySlice hash_string 2 4,
         cfg.objectStoreDataCollectionIdentifier, format_type,
         collection_name]
      else
        [cfg.sharedfsCollectionPath,
         pySlice hash_string 0 2, pySlice hash_string 2 4,
         format_type, collection_name]
    joinPath remote_dir ++ "/" ++
      (get_formatted_collection_number (pyIntDigits collection_number)
        ++ ".tar.gz")
  else
    joinPath [cfg.sharedfsCollectionPath, tranche, collection_name,
      collection_number ++ ".tar.gz"]

/-! ## Data model of the batching engine -/

/-- The storage-mode-dependent retrieval location attached to a collection
record by `add_collection_to_subjob`. -/
inductive StorageLocation where
  | s3Loc (s3_bucket : String) (s3_download_path : String)
  | sharedfsLoc (sharedfs_path : String)
  deriving Repr, DecidableEq

/-- The per-collection record that `add_collection_to_subjob` stores under
the collection key of a subjob dictionary. -/
structure CollectionRecord where
  collection_full_name : String
  collection_tranche : String
  collection_name : String
  collection_number : String
  ligand_count : Nat
  location : StorageLocation
  deriving Repr, DecidableEq

/-- A subjob is the insertion-ordered dictionary
`subjob['collections']` mapping collection full names to records. -/
abbrev Subjob := List (String × CollectionRecord)

/-- Python dict assignment `d[k] = v`: update in place when the key is
present, append otherwise. -/
def dictInsert (l : Subjob) (k : String) (v : CollectionRecord) : Subjob :=
  if k ∈ l.map Prod.fst then
    l.map (fun p => if p.1 = k then (k, v) else p)
  else l ++ [(k, v)]

/-- Instrumentation recorded at the moment a subjob is sealed into the
current workunit: which of the two code paths sealed it (the singleton
branch at lines 308-320 or the leftover branch at lines 321-342 /
the end-of-stream flush at line 360), together with the value of the
relevant counter at that moment (the collection count for a singleton,
`leftover_count` for a leftover). -/
inductive SubjobTag where
  | singletonTag (count : Nat)
  | leftoverTag (accumulated : Nat)
  deriving Repr, DecidableEq

/-- `generate_subjob_init`: a fresh empty subjob dictionary. -/
def generate_subjob_init : Subjob := []

/-- `add_collection_to_subjob`: insert the collection record (with its
resolved retrieval location) under the collection key.  On an unknown
`job_storage_mode` the source prints a diagnostic and calls `exit(1)`,
modelled as `.error (exit code, message)`. -/
def add_collection_to_subjob (cfg : Config) (subjob : Subjob)
    (collection_key : String) (collection_count : Nat)
    (collection_tranche collection_name collection_number : String) :
    Except (Nat × String) Subjob :=
  if cfg.jobStorageMode = "s3" then
    .ok (dictInsert subjob collection_key
      { collection_full_name := collection_key
        collection_tranche := collection_tranche
        collection_name := collection_name
        collection_number := collection_number
        ligand_count := collection_count
        location := .s3Loc cfg.objectStoreDataBucket
          (gen_s3_download_path cfg collection_tranche collection_name
            collection_number) })
  else if cfg.jobStorageMode = "sharedfs" then
    .ok (dictInsert subjob collection_key
      { collection_full_name := collection_key
        collection_tranche := collection_tranche
        collection_name := collection_name
        collection_number := collection_number
        ligand_count := collection_count
        location := .sharedfsLoc (gen_sharedfs_path cfg collection_tranche
          collection_name collection_number) })
  else
    .error (1, "job_storage_mode must be either s3 or sharedfs (currently: "
      ++ cfg.jobStorageMode ++ ")")

/-- The value `publish_workunit` returns for one workunit: the sealed
subjobs together with the retrieval location.  `noneResult` models the
Python fall-through `return None` when the storage mode is unknown (the
source has no else branch there). -/
inductive PublishResult where
  | s3Result (subjobs : List (SubjobTag × Subjob)) (s3_download_path : String)
  | sharedfsResult (subjobs : List (SubjobTag × Subjob)) (download_path : String)
  | noneResult
  deriving Repr, DecidableEq

/-- The subjobs recorded in a publish result. -/
def PublishResult.subjobs : PublishResult → List (SubjobTag × Subjob)
  | .s3Result s _ => s
  | .sharedfsResult s _ => s
  | .noneResult => []

/-- The pure outcome of a successful `publish_workunit` call: descriptor
plus archive are packaged, stored under the mode-dependent location, and
the subjobs/location record is returned (source lines 96-145). -/
def publish_result (cfg : Config) (index : Nat)
    (workunit_subjobs : List (SubjobTag × Subjob)) : PublishResult :=
  if cfg.jobStorageMode = "s3" then
    let object_name :=
      if cfg.objectStoreJobAddressingMode = "hash" then
        let hash_string := get_collection_hash cfg.jobLetter index
        joinPath [cfg.objectStoreJobPrefixCfg, pySlice hash_string 0 2,
          pySlice hash_string 2 4, cfg.jobLetter, "input", "tasks",
          Nat.repr index ++ ".tar.gz"]
      else
        joinPath [cfg.objectStoreJobPrefixFull, "input", "tasks",
          Nat.repr index ++ ".tar.gz"]
    .s3Result workunit_subjobs object_name
  else if cfg.jobStorageMode = "sharedfs" then
    .sharedfsResult workunit_subjobs
      (cfg.sharedfsWorkunitPath ++ "/" ++ Nat.repr index ++ ".tar.gz")
  else .noneResult

/-- Outcome of the storage primitive invoked by `publish_workunit`
(`s3.upload_file` or `shutil.copyfile`), supplied as an oracle. -/
inductive StorageOutcome where
  | success
  | failure
  deriving Repr, DecidableEq

/-- Python exceptions that can escape `publish_workunit`. -/
inductive PyExc where
  | nameError
  | copyError
  deriving Repr, DecidableEq

/-- `publish_workunit` with explicit storage outcomes.  In s3 mode the
source wraps the upload in `try ... except ClientError`, but the name
`ClientError` is never imported: when `upload_file` raises, evaluating the
except clause raises an uncaught `NameError`, so the failure propagates to
the caller instead of being logged (modelled as `.error .nameError`).  In
sharedfs mode `shutil.copyfile` is not wrapped at all, so a copy failure
propagates (modelled as `.error .copyError`). -/
def publish_workunit (cfg : Config) (index : Nat)
    (workunit_subjobs : List (SubjobTag × Subjob))
    (upload_outcome copy_outcome : StorageOutcome) :
    Except PyExc PublishResult :=
  if cfg.jobStorageMode = "s3" then
    match upload_outcome with
    | .success => .ok (publish_result cfg index workunit_subjobs)
    | .failure => .error .nameError
  else if cfg.jobStorageMode = "sharedfs" then
    match copy_outcome with
    | .success => .ok (publish_result cfg index workunit_subjobs)
    | .failure => .error .copyError
  else .ok .noneResult

/-! ## The manifest-processing loop (`process`, lines 265-378)

Loop state: the published workunits (the `workunits` view of `status`),
`current_workunit_index`, the current workunit subjob dictionary,
`leftover_count`, and the accumulating leftover subjob.  In the source the
current workunit dictionary is keyed by `current_subjob_index`, which
always equals its size (both are reset together and the index is
incremented exactly on insertion at that key), so it is modelled as a
list.  The progress printing (`counter`, `total_lines`) has no effect on
the computed data and is omitted. -/

structure BState where
  workunits : List (Nat × PublishResult)
  current_workunit_index : Nat
  current_workunit_subjobs : List (SubjobTag × Subjob)
  leftover_count : Nat
  leftover_subjob : Subjob
  deriving Repr, DecidableEq

/-- A fatal termination of the run: the exit code, the diagnostic on the
way out, and the workunits that had been packaged and published before the
exit. -/
structure RunError where
  exitCode : Nat
  message : String
  workunitsAtExit : List (Nat × PublishResult)
  deriving Repr, DecidableEq

/-- `max_array_job_size` (source lines 295-298): chosen by `batchsystem`;
for any other value the variable is left unbound and its first use raises
`NameError`. -/
def maxArrayJobSize (cfg : Config) : Option Nat :=
  if cfg.batchsystem = "awsbatch" then some cfg.awsBatchArrayJobSize
  else if cfg.batchsystem = "slurm" then some cfg.slurmArrayJobSize
  else none

/-- The threshold branch of the loop body (source lines 308-342): a
collection meeting `ligands_todo_per_queue` seals a fresh singleton
subjob into the current workunit; otherwise it is absorbed into the
leftover subjob, and once `leftover_count` meets the threshold the
leftover subjob is sealed and both accumulators are reset. -/
def processCollection (cfg : Config) (st : BState)
    (collection_full_name : String) (collection_count : Nat)
    (collection_tranche collection_name collection_number : String) :
    Except RunError BState :=
  if cfg.ligandsTodoPerQueue ≤ collection_count then
    match add_collection_to_subjob cfg generate_subjob_init
        collection_full_name collection_count collection_tranche
        collection_name collection_number with
    | .error e => .error ⟨e.1, e.2, st.workunits⟩
    | .ok sj =>
      .ok { st with current_workunit_subjobs :=
        st.current_workunit_subjobs ++ [(.singletonTag collection_count, sj)] }
  else
    match add_collection_to_subjob cfg st.leftover_subjob
        collection_full_name collection_count collection_tranche
        collection_name collection_number with
    | .error e => .error ⟨e.1, e.2, st.workunits⟩
    | .ok lsj =>
      if cfg.ligandsTodoPerQueue ≤ st.leftover_count + collection_count then
        .ok { st with
          current_workunit_subjobs := st.current_workunit_subjobs ++
            [(.leftoverTag (st.leftover_count + collection_count), lsj)]
          leftover_subjob := generate_subjob_init
          leftover_count := 0 }
      else
        .ok { st with
          leftover_subjob := lsj
          leftover_count := st.leftover_count + collection_count }

/-- The workunit-sealing check run after every collection (source lines
344-350): when the current workunit holds exactly `max_array_job_size`
subjobs it is published immediately and a fresh workunit begins. -/
def sealCheck (cfg : Config) (st : BState) : Except RunError BState :=
  match maxArrayJobSize cfg with
  | none => .error ⟨1, "NameError: max_array_job_size is not defined",
      st.workunits⟩
  | some m =>
    if st.current_workunit_subjobs.length = m then
      .ok { st with
        workunits := st.workunits ++ [(st.current_workunit_index,
          publish_result cfg st.current_workunit_index
            st.current_workunit_subjobs)]
        current_workunit_index := st.current_workunit_index + 1
        current_workunit_subjobs := [] }
    else .ok st

/-- One iteration of the manifest loop (source lines 301-350): parse the
line, run the threshold branch, then the sealing check.  A full name
without an underscore makes the 2-element unpack of `split("_", 1)` raise
`ValueError` (uncaught, exit status 1). -/
def processLine (cfg : Config) (st : BState) (line : String × Nat) :
    Except RunError BState :=
  match splitFirstRest '_' line.1 with
  | none => .error ⟨1, "ValueError: not enough values to unpack",
      st.workunits⟩
  | some (collection_name, collection_number) =>
    (processCollection cfg st line.1 line.2 (pySlice line.1 0 2)
      collection_name collection_number).bind (sealCheck cfg)

/-- The manifest loop: fold `processLine` over the parsed lines, stopping
at the first fatal error. -/
def processLines (cfg : Config) :
    BState → List (String × Nat) → Except RunError BState
  | st, [] => .ok st
  | st, line :: rest =>
    (processLine cfg st line).bind fun st' => processLines cfg st' rest

/-- Initial loop state (source lines 277-282). -/
def initState : BState := ⟨[], 1, [], 0, generate_subjob_init⟩

/-- The status artifact written to `../workflow/status.json`: `overall`
and `collections` are initialised to empty dictionaries (source lines
269-273) and never written again; `workunits` is the accumulated mapping. -/
structure Status where
  overall : List (String × String)
  workunits : List (Nat × PublishResult)
  collections : List (String × String)
  deriving Repr, DecidableEq

/-- The observable outcome of a successful run: the serialized status
artifact and the count printed by
`print(f"Generated {current_workunit_index} workunits")`. -/
structure RunResult where
  status : Status
  generated_workunits : Nat
  deriving Repr, DecidableEq

/-- End-of-stream leftover flush (source lines 358-360): a leftover
subjob with a non-zero accumulated count is sealed into the current
workunit as-is. -/
def flushLeftover (st : BState) : BState :=
  if 0 < st.leftover_count then
    { st with current_workunit_subjobs := st.current_workunit_subjobs ++
        [(.leftoverTag st.leftover_count, st.leftover_subjob)] }
  else st

/-- End-of-stream finish (source lines 358-378): flush the leftover,
publish the in-progress workunit when it holds at least one subjob
(otherwise step the printed index back), and build the status artifact. -/
def finishRun (cfg : Config) (st : BState) : RunResult :=
  let st1 := flushLeftover st
  if 0 < st1.current_workunit_subjobs.length then
    { status :=
        { overall := []
          workunits := st1.workunits ++ [(st1.current_workunit_index,
            publish_result cfg st1.current_workunit_index
              st1.current_workunit_subjobs)]
          collections := [] }
      generated_workunits := st1.current_workunit_index }
  else
    { status :=
        { overall := [], workunits := st1.workunits, collections := [] }
      generated_workunits := st1.current_workunit_index - 1 }

/-- `process`: the whole manifest pass, from the parsed manifest to the
final status artifact and printed workunit count. -/
def process (cfg : Config) (manifest : List (String × Nat)) :
    Except RunError RunResult :=
  (processLines cfg initState manifest).map (finishRun cfg)

/-! ## Inputs used by the closed witness theorems -/

/-- The final path segment of a `/`-joined path: the characters after the
last slash. -/
def pathFilename (s : String) : String :=
  String.mk (s.data.foldl (fun acc c => if c = '/' then [] else acc ++ [c]) [])

/-- A concrete sharedfs/tranche configuration (threshold 100, slurm array
size 10) used by witnesses. -/
def wCfg : Config :=
  { ligandsTodoPerQueue := 100, batchsystem := "slurm",
    awsBatchArrayJobSize := 0, slurmArrayJobSize := 10,
    jobStorageMode := "sharedfs", objectStoreJobAddressingMode := "full",
    objectStoreJobPrefixCfg := "jp", objectStoreJobPrefixFull := "jpf",
    jobLetter := "j", objectStoreDataBucket := "bkt",
    objectStoreDataCollectionAddressingMode := "tranche",
    objectStoreDataCollectionPrefixCfg := "pfx",
    objectStoreDataCollectionIdentifier := "",
    ligandLibraryFormat := "pdbqt", sharedfsCollectionPath := "/cols",
    sharedfsWorkunitPath := "/wus" }

/-- `wCfg` with s3 storage. -/
def wCfgS3 : Config := { wCfg with jobStorageMode := "s3" }

/-- `wCfg` with an unknown storage mode. -/
def wCfgBad : Config := { wCfg with jobStorageMode := "local" }

/-- `wCfg` with hash addressing for collection data. -/
def wCfgHash : Config :=
  { wCfg with objectStoreDataCollectionAddressingMode := "hash" }

/-- The example manifest of the specification: one collection at or above
the threshold, two below it summing below it. -/
def wMan : List (String × Nat) :=
  [("AAAAAAA_0000001", 150), ("AAAAAAA_0000002", 30), ("AAAAAAA_0000003", 40)]

/-- The run result of `process wCfg wMan` (extracted by evaluation). -/
def wRun1 : RunResult :=
  (process wCfg wMan).toOption.getD ⟨⟨[], [], []⟩, 0⟩

/-! ## Derived observations used by the verified properties -/

/-- The collection keys of a subjob dictionary, as a multiset. -/
def subjobKeys (sj : Subjob) : Multiset String :=
  (sj.map Prod.fst : List String)

/-- All collection keys of a list of sealed subjobs. -/
def wuKeys (l : List (SubjobTag × Subjob)) : Multiset String :=
  (l.map (fun t => subjobKeys t.2)).sum

/-- All collection keys recorded in a list of published workunits. -/
def publishedKeys (ws : List (Nat × PublishResult)) : Multiset String :=
  (ws.map (fun w => wuKeys (Prod.snd w).subjobs)).sum

/-- All collection keys held anywhere in the loop state. -/
def stateKeys (st : BState) : Multiset String :=
  publishedKeys st.workunits + wuKeys st.current_workunit_subjobs +
    subjobKeys st.leftover_subjob

/-- The summed ligand counts of a subjob dictionary. -/
def subjobCount (sj : Subjob) : Nat :=
  (sj.map (fun p => (Prod.snd p).ligand_count)).sum

/-- A sealed subjob is well formed for threshold `T`: a singleton one holds
exactly one collection whose count is the recorded count, at least `T`; a
leftover one was sealed at an accumulated count of at least `T`. -/
def tagOk (T : Nat) : SubjobTag × Subjob → Prop
  | (.singletonTag c, sj) => T ≤ c ∧ ∃ k rec,
      sj = [(k, rec)] ∧ CollectionRecord.ligand_count rec = c
  | (.leftoverTag lc, _) => T ≤ lc

/-- Loop invariant for workunit cardinality: the in-progress workunit is
strictly below the array-size ceiling and every published workunit is
exactly at it. -/
def sizeInv (m : Nat) (st : BState) : Prop :=
  st.current_workunit_subjobs.length < m ∧
  ∀ w ∈ st.workunits, (Prod.snd w).subjobs.length = m

/-- Loop invariant for sequential indexing: published workunit indices are
`1..len` and the in-progress index is the next one. -/
def idxInv (st : BState) : Prop :=
  st.workunits.map Prod.fst = List.range' 1 st.workunits.length ∧
  st.current_workunit_index = st.workunits.length + 1

/-- Loop invariant for threshold correctness: every sealed subjob, whether
already published or in the in-progress workunit, is well formed. -/
def tagInv (T : Nat) (st : BState) : Prop :=
  (∀ t ∈ st.current_workunit_subjobs, tagOk T t) ∧
  ∀ w ∈ st.workunits, ∀ t ∈ (Prod.snd w).subjobs, tagOk T t

/-! ## Step-shape lemmas for the loop body -/

theorem dictInsert_nil (k : String) (v : CollectionRecord) :
    dictInsert [] k v = [(k, v)] := by
  simp [dictInsert]

theorem dictInsert_not_mem {l : Subjob} {k : String} (v : CollectionRecord)
    (h : k ∉ l.map Prod.fst) : dictInsert l k v = l ++ [(k, v)] := by
  simp [dictInsert, h]

theorem add_collection_s3 (cfg : Config) (subjob : Subjob) (k : String)
    (c : Nat) (t n num : String) (hmode : cfg.jobStorageMode = "s3") :
    add_collection_to_subjob cfg subjob k c t n num =
      .ok (dictInsert subjob k ⟨k, t, n, num, c,
        .s3Loc cfg.objectStoreDataBucket (gen_s3_download_path cfg t n num)⟩) := by
  simp [add_collection_to_subjob, hmode]

theorem add_collection_sharedfs (cfg : Config) (subjob : Subjob) (k : String)
    (c : Nat) (t n num : String) (hmode : cfg.jobStorageMode = "sharedfs") :
    add_collection_to_subjob cfg subjob k c t n num =
      .ok (dictInsert subjob k ⟨k, t, n, num, c,
        .sharedfsLoc (gen_sharedfs_path cfg t n num)⟩) := by
  simp [add_collection_to_subjob, hmode]

theorem add_collection_invalid (cfg : Config) (subjob : Subjob) (k : String)
    (c : Nat) (t n num : String) (h1 : cfg.jobStorageMode ≠ "s3")
    (h2 : cfg.jobStorageMode ≠ "sharedfs") :
    add_collection_to_subjob cfg subjob k c t n num =
      .error (1, "job_storage_mode must be either s3 or sharedfs (currently: "
        ++ cfg.jobStorageMode ++ ")") := by
  simp [add_collection_to_subjob, h1, h2]

theorem add_collection_ok_elim {cfg : Config} {subjob : Subjob} {k : String}
    {c : Nat} {t n num : String} {sj' : Subjob}
    (h : add_collection_to_subjob cfg subjob k c t n num = .ok sj') :
    (cfg.jobStorageMode = "s3" ∨ cfg.jobStorageMode = "sharedfs") ∧
    ∃ rec : CollectionRecord, sj' = dictInsert subjob k rec ∧
      rec.collection_full_name = k ∧ rec.ligand_count = c := by
  by_cases h1 : cfg.jobStorageMode = "s3"
  · rw [add_collection_s3 cfg subjob k c t n num h1] at h
    simp only [Except.ok.injEq] at h
    exact ⟨Or.inl h1, _, h.symm, rfl, rfl⟩
  · by_cases h2 : cfg.jobStorageMode = "sharedfs"
    · rw [add_collection_sharedfs cfg subjob k c t n num h2] at h
      simp only [Except.ok.injEq] at h
      exact ⟨Or.inr h2, _, h.symm, rfl, rfl⟩
    · rw [add_collection_invalid cfg subjob k c t n num h1 h2] at h
      exact absurd h (by simp)

theorem publish_result_subjobs {cfg : Config}
    (hmode : cfg.jobStorageMode = "s3" ∨ cfg.jobStorageMode = "sharedfs")
    (i : Nat) (s : List (SubjobTag × Subjob)) :
    (publish_result cfg i s).subjobs = s := by
  rcases hmode with h | h <;>
    simp [publish_result, PublishResult.subjobs, h]

theorem processCollection_ok_elim {cfg : Config} {st : BState} {k : String}
    {c : Nat} {t n num : String} {st' : BState}
    (h : processCollection cfg st k c t n num = .ok st') :
    (cfg.jobStorageMode = "s3" ∨ cfg.jobStorageMode = "sharedfs") ∧
    ∃ rec : CollectionRecord, rec.collection_full_name = k ∧
      rec.ligand_count = c ∧
      ((cfg.ligandsTodoPerQueue ≤ c ∧
        st' = { st with current_workunit_subjobs :=
          st.current_workunit_subjobs ++ [(.singletonTag c, [(k, rec)])] }) ∨
       (c < cfg.ligandsTodoPerQueue ∧
        cfg.ligandsTodoPerQueue ≤ st.leftover_count + c ∧
        st' = { st with
          current_workunit_subjobs := st.current_workunit_subjobs ++
            [(.leftoverTag (st.leftover_count + c),
              dictInsert st.leftover_subjob k rec)]
          leftover_subjob := generate_subjob_init
          leftover_count := 0 }) ∨
       (c < cfg.ligandsTodoPerQueue ∧
        st.leftover_count + c < cfg.ligandsTodoPerQueue ∧
        st' = { st with
          leftover_subjob := dictInsert st.leftover_subjob k rec
          leftover_count := st.leftover_count + c })) := by
  unfold processCollection at h
  split at h
  · next hc =>
    split at h
    · exact absurd h (by simp)
    · next sj hadd =>
      simp only [Except.ok.injEq] at h
      obtain ⟨hmode, rec, hsj, hname, hcount⟩ := add_collection_ok_elim hadd
      refine ⟨hmode, rec, hname, hcount, Or.inl ⟨hc, ?_⟩⟩
      rw [← h, hsj]
      simp [generate_subjob_init, dictInsert_nil]
  · next hc =>
    split at h
    · exact absurd h (by simp)
    · next lsj hadd =>
      obtain ⟨hmode, rec, hsj, hname, hcount⟩ := add_collection_ok_elim hadd
      split at h
      · next hlc =>
        simp only [Except.ok.injEq] at h
        refine ⟨hmode, rec, hname, hcount,
          Or.inr (Or.inl ⟨Nat.lt_of_not_le hc, hlc, ?_⟩)⟩
        rw [← h, hsj]
      · next hlc =>
        simp only [Except.ok.injEq] at h
        refine ⟨hmode, rec, hname, hcount,
          Or.inr (Or.inr ⟨Nat.lt_of_not_le hc, Nat.lt_of_not_le hlc, ?_⟩)⟩
        rw [← h, hsj]

theorem sealCheck_ok_elim {cfg : Config} {st st' : BState}
    (h : sealCheck cfg st = .ok st') :
    ∃ m : Nat, maxArrayJobSize cfg = some m ∧
      ((st.current_workunit_subjobs.length = m ∧
        st' = { st with
          workunits := st.workunits ++ [(st.current_workunit_index,
            publish_result cfg st.current_workunit_index
              st.current_workunit_subjobs)]
          current_workunit_index := st.current_workunit_index + 1
          current_workunit_subjobs := [] }) ∨
       (st.current_workunit_subjobs.length ≠ m ∧ st' = st)) := by
  unfold sealCheck at h
  split at h
  · exact absurd h (by simp)
  · next m heq =>
    split at h
    · next hlen =>
      simp only [Except.ok.injEq] at h
      exact ⟨m, heq, Or.inl ⟨hlen, h.symm⟩⟩
    · next hlen =>
      simp only [Except.ok.injEq] at h
      exact ⟨m, heq, Or.inr ⟨hlen, h.symm⟩⟩

theorem processLine_ok_elim {cfg : Config} {st : BState} {line : String × Nat}
    {st' : BState} (h : processLine cfg st line = .ok st') :
    ∃ collection_name collection_number stMid,
      splitFirstRest '_' line.1 = some (collection_name, collection_number) ∧
      processCollection cfg st line.1 line.2 (pySlice line.1 0 2)
        collection_name collection_number = .ok stMid ∧
      sealCheck cfg stMid = .ok st' := by
  unfold processLine at h
  split at h
  · exact absurd h (by simp)
  · next nm num heq =>
    cases hpc : processCollection cfg st line.1 line.2 (pySlice line.1 0 2) nm num with
    | error e => rw [hpc] at h; exact absurd h (by simp [Except.bind])
    | ok stMid =>
      rw [hpc] at h
      exact ⟨nm, num, stMid, heq, hpc, h⟩

/-- Any property preserved by every successful `processLine` step is an
invariant of the whole manifest loop. -/
theorem processLines_inv {cfg : Config} (P : BState → Prop)
    (step : ∀ st line st', processLine cfg st line = .ok st' → P st → P st') :
    ∀ lines st st', processLines cfg st lines = .ok st' → P st → P st' := by
  intro lines
  induction lines with
  | nil =>
    intro st st' h hP
    simp only [processLines, Except.ok.injEq] at h
    exact h ▸ hP
  | cons l ls ih =>
    intro st st' h hP
    simp only [processLines] at h
    cases hl : processLine cfg st l with
    | error e => rw [hl] at h; exact absurd h (by simp [Except.bind])
    | ok st1 =>
      rw [hl] at h
      exact ih st1 st' h (step st l st1 hl hP)

theorem processLines_cons_elim {cfg : Config} {st : BState}
    {l : String × Nat} {ls : List (String × Nat)} {st' : BState}
    (h : processLines cfg st (l :: ls) = .ok st') :
    ∃ st1, processLine cfg st l = .ok st1 ∧
      processLines cfg st1 ls = .ok st' := by
  simp only [processLines] at h
  cases hl : processLine cfg st l with
  | error e => rw [hl] at h; exact absurd h (by simp [Except.bind])
  | ok st1 => rw [hl] at h; exact ⟨st1, rfl, h⟩

theorem modeValid_of_processLine {cfg : Config} {st : BState}
    {line : String × Nat} {st' : BState}
    (h : processLine cfg st line = .ok st') :
    cfg.jobStorageMode = "s3" ∨ cfg.jobStorageMode = "sharedfs" := by
  obtain ⟨_, _, _, _, hpc, _⟩ := processLine_ok_elim h
  exact (processCollection_ok_elim hpc).1

/-- Dissection of a successful run: the loop reached a final state, the
result is its finish, and (unless the manifest was empty) the storage mode
was one of the two recognized ones. -/
theorem process_ok_elim {cfg : Config} {manifest : List (String × Nat)}
    {r : RunResult} (h : process cfg manifest = .ok r) :
    ∃ st', processLines cfg initState manifest = .ok st' ∧
      r = finishRun cfg st' ∧
      (manifest = [] ∨
        (cfg.jobStorageMode = "s3" ∨ cfg.jobStorageMode = "sharedfs")) := by
  unfold process at h
  cases hls : processLines cfg initState manifest with
  | error e => rw [hls] at h; exact absurd h (by simp [Except.map])
  | ok st' =>
    rw [hls] at h
    simp only [Except.map, Except.ok.injEq] at h
    refine ⟨st', rfl, h.symm, ?_⟩
    cases manifest with
    | nil => exact Or.inl rfl
    | cons l ls =>
      obtain ⟨st1, hl, _⟩ := processLines_cons_elim hls
      exact Or.inr (modeValid_of_processLine hl)

theorem flushLeftover_workunits (st : BState) :
    (flushLeftover st).workunits = st.workunits := by
  unfold flushLeftover; split <;> rfl

theorem flushLeftover_index (st : BState) :
    (flushLeftover st).current_workunit_index = st.current_workunit_index := by
  unfold flushLeftover; split <;> rfl

theorem finishRun_workunits (cfg : Config) (st : BState) :
    (finishRun cfg st).status.workunits =
      if 0 < (flushLeftover st).current_workunit_subjobs.length then
        (flushLeftover st).workunits ++
          [((flushLeftover st).current_workunit_index,
            publish_result cfg (flushLeftover st).current_workunit_index
              (flushLeftover st).current_workunit_subjobs)]
      else (flushLeftover st).workunits := by
  unfold finishRun; split <;> simp_all

theorem finishRun_generated (cfg : Config) (st : BState) :
    (finishRun cfg st).generated_workunits =
      if 0 < (flushLeftover st).current_workunit_subjobs.length then
        (flushLeftover st).current_workunit_index
      else (flushLeftover st).current_workunit_index - 1 := by
  unfold finishRun; split <;> simp_all

theorem sizeInv_step {cfg : Config} {m : Nat} (hm : maxArrayJobSize cfg = some m)
    (hm1 : 0 < m) (st : BState) (line : String × Nat) (st' : BState)
    (h : processLine cfg st line = .ok st') (hinv : sizeInv m st) :
    sizeInv m st' := by
  obtain ⟨hcur, hpub⟩ := hinv
  obtain ⟨nm, num, stMid, _, hpc, hsc⟩ := processLine_ok_elim h
  obtain ⟨hmode, rec, _, _, hcases⟩ := processCollection_ok_elim hpc
  have hmid_pub : ∀ w ∈ stMid.workunits, (Prod.snd w).subjobs.length = m := by
    rcases hcases with ⟨_, hst⟩ | ⟨_, _, hst⟩ | ⟨_, _, hst⟩ <;> subst hst <;>
      simpa using hpub
  have hmid_cur : stMid.current_workunit_subjobs.length ≤ m := by
    rcases hcases with ⟨_, hst⟩ | ⟨_, _, hst⟩ | ⟨_, _, hst⟩ <;> subst hst <;>
      simp <;> omega
  obtain ⟨m', hm', hsc2⟩ := sealCheck_ok_elim hsc
  rw [hm] at hm'
  injection hm' with hm'
  subst hm'
  rcases hsc2 with ⟨hlen, hst'⟩ | ⟨hlen, hst'⟩
  · subst hst'
    refine ⟨by simpa using hm1, ?_⟩
    intro w hw
    simp only [List.mem_append, List.mem_singleton] at hw
    rcases hw with hw | hw
    · exact hmid_pub w hw
    · subst hw
      simp [publish_result_subjobs hmode, hlen]
  · subst hst'
    exact ⟨Nat.lt_of_le_of_ne hmid_cur hlen, hmid_pub⟩

theorem idxInv_step {cfg : Config} (st : BState) (line : String × Nat)
    (st' : BState) (h : processLine cfg st line = .ok st')
    (hinv : idxInv st) : idxInv st' := by
  obtain ⟨hidx, hnext⟩ := hinv
  obtain ⟨nm, num, stMid, _, hpc, hsc⟩ := processLine_ok_elim h
  obtain ⟨hmode, rec, _, _, hcases⟩ := processCollection_ok_elim hpc
  have hmid : stMid.workunits = st.workunits ∧
      stMid.current_workunit_index = st.current_workunit_index := by
    rcases hcases with ⟨_, hst⟩ | ⟨_, _, hst⟩ | ⟨_, _, hst⟩ <;> subst hst <;>
      exact ⟨rfl, rfl⟩
  obtain ⟨m', _, hsc2⟩ := sealCheck_ok_elim hsc
  rcases hsc2 with ⟨hlen, hst'⟩ | ⟨hlen, hst'⟩
  · subst hst'
    constructor
    · simp only [List.map_append, List.map_cons, List.map_nil,
        List.length_append, List.length_cons, List.length_nil,
        hmid.1, hmid.2, hidx, hnext]
      have := List.range'_append_1 1 st.workunits.length 1
      simpa [Nat.add_comm] using this
    · simp [hmid.1, hmid.2, hnext]
  · subst hst'
    constructor
    · rw [hmid.1]
      exact hidx
    · rw [hmid.2, hmid.1]
      exact hnext

theorem tagInv_step {cfg : Config} {T : Nat}
    (hT : T = cfg.ligandsTodoPerQueue) (st : BState) (line : String × Nat)
    (st' : BState) (h : processLine cfg st line = .ok st')
    (hinv : tagInv T st) : tagInv T st' := by
  subst hT
  obtain ⟨hcur, hpub⟩ := hinv
  obtain ⟨nm, num, stMid, _, hpc, hsc⟩ := processLine_ok_elim h
  obtain ⟨hmode, rec, _, hcount, hcases⟩ := processCollection_ok_elim hpc
  have hmid_cur : ∀ t ∈ stMid.current_workunit_subjobs,
      tagOk cfg.ligandsTodoPerQueue t := by
    rcases hcases with ⟨hc, hst⟩ | ⟨hc1, hc2, hst⟩ | ⟨hc1, hc2, hst⟩ <;> subst hst
    · intro t ht
      simp only [List.mem_append, List.mem_singleton] at ht
      rcases ht with ht | ht
      · exact hcur t ht
      · subst ht
        exact ⟨hc, line.1, rec, rfl, hcount⟩
    · intro t ht
      simp only [List.mem_append, List.mem_singleton] at ht
      rcases ht with ht | ht
      · exact hcur t ht
      · subst ht
        exact hc2
    · simpa using hcur
  have hmid_pub : ∀ w ∈ stMid.workunits, ∀ t ∈ (Prod.snd w).subjobs,
      tagOk cfg.ligandsTodoPerQueue t := by
    rcases hcases with ⟨_, hst⟩ | ⟨_, _, hst⟩ | ⟨_, _, hst⟩ <;> subst hst <;>
      simpa using hpub
  obtain ⟨m', _, hsc2⟩ := sealCheck_ok_elim hsc
  rcases hsc2 with ⟨hlen, hst'⟩ | ⟨hlen, hst'⟩
  · subst hst'
    refine ⟨by simp, ?_⟩
    intro w hw
    simp only [List.mem_append, List.mem_singleton] at hw
    rcases hw with hw | hw
    · exact hmid_pub w hw
    · subst hw
      simpa [publish_result_subjobs hmode] using hmid_cur
  · subst hst'
    exact ⟨hmid_cur, hmid_pub⟩

theorem flushLeftover_cases (st : BState) :
    (st.leftover_count = 0 ∧ flushLeftover st = st) ∨
    (0 < st.leftover_count ∧ flushLeftover st = { st with
      current_workunit_subjobs := st.current_workunit_subjobs ++
        [(.leftoverTag st.leftover_count, st.leftover_subjob)] }) := by
  unfold flushLeftover
  split
  · next h => exact Or.inr ⟨h, rfl⟩
  · next h => exact Or.inl ⟨by omega, rfl⟩

/-- C2: in the final status artifact every published workunit except
possibly the last holds exactly `max_array_job_size` subjobs; every
published workunit holds between 1 and `max_array_job_size` subjobs (so no
empty workunit is ever published); and whenever the current workunit
reaches the ceiling the sealing check publishes it immediately and starts
a fresh empty workunit. -/
theorem claim_C2 {cfg : Config} {manifest : List (String × Nat)} {m : Nat}
    {r : RunResult} (hm : maxArrayJobSize cfg = some m) (hm1 : 0 < m)
    (h : process cfg manifest = .ok r) :
    (∀ w ∈ r.status.workunits.dropLast, (Prod.snd w).subjobs.length = m) ∧
    (∀ w ∈ r.status.workunits,
      0 < (Prod.snd w).subjobs.length ∧ (Prod.snd w).subjobs.length ≤ m) ∧
    (∀ st : BState, st.current_workunit_subjobs.length = m →
      sealCheck cfg st = .ok { st with
        workunits := st.workunits ++ [(st.current_workunit_index,
          publish_result cfg st.current_workunit_index
            st.current_workunit_subjobs)]
        current_workunit_index := st.current_workunit_index + 1
        current_workunit_subjobs := [] }) := by
  have hseal : ∀ st : BState, st.current_workunit_subjobs.length = m →
      sealCheck cfg st = .ok { st with
        workunits := st.workunits ++ [(st.current_workunit_index,
          publish_result cfg st.current_workunit_index
            st.current_workunit_subjobs)]
        current_workunit_index := st.current_workunit_index + 1
        current_workunit_subjobs := [] } := by
    intro st hlen
    simp [sealCheck, hm, hlen]
  obtain ⟨st', hls, hr, hcase⟩ := process_ok_elim h
  have hinv : sizeInv m st' :=
    processLines_inv (sizeInv m) (sizeInv_step hm hm1) manifest initState st'
      hls ⟨by simpa [initState] using hm1, by simp [initState]⟩
  obtain ⟨hcur, hpub⟩ := hinv
  have hcur1 : (flushLeftover st').current_workunit_subjobs.length ≤ m := by
    rcases flushLeftover_cases st' with ⟨_, hfl⟩ | ⟨_, hfl⟩ <;> rw [hfl]
    · omega
    · simp only [List.length_append, List.length_cons, List.length_nil]
      omega
  have hpub1 : ∀ w ∈ (flushLeftover st').workunits,
      (Prod.snd w).subjobs.length = m := by
    rw [flushLeftover_workunits]; exact hpub
  subst hr
  rw [finishRun_workunits]
  by_cases hfin : 0 < (flushLeftover st').current_workunit_subjobs.length
  · rw [if_pos hfin]
    have hmode : cfg.jobStorageMode = "s3" ∨ cfg.jobStorageMode = "sharedfs" := by
      rcases hcase with hman | hmode
      · exfalso
        subst hman
        simp only [processLines, Except.ok.injEq] at hls
        subst hls
        rcases flushLeftover_cases initState with ⟨_, hfl⟩ | ⟨hpos, _⟩
        · rw [hfl] at hfin
          simp [initState] at hfin
        · exact absurd hpos (by decide)
      · exact hmode
    refine ⟨?_, ?_, hseal⟩
    · intro w hw
      rw [List.dropLast_concat] at hw
      exact hpub1 w hw
    · intro w hw
      rcases List.mem_append.mp hw with hw | hw
      · have := hpub1 w hw
        omega
      · simp only [List.mem_singleton] at hw
        subst hw
        simp only [publish_result_subjobs hmode]
        exact ⟨hfin, hcur1⟩
  · rw [if_neg hfin]
    refine ⟨?_, ?_, hseal⟩
    · intro w hw
      exact hpub1 w (List.dropLast_subset _ hw)
    · intro w hw
      have := hpub1 w hw
      omega

/-- C3: the workunit keys of the final status artifact form the contiguous
range `1..K` where `K` is the printed generated-workunits count; at
end-of-stream the in-progress workunit is published as the final workunit
exactly when it holds at least one subjob, and when it holds none the
printed count equals the index of the last published workunit. -/
theorem claim_C3 {cfg : Config} {manifest : List (String × Nat)}
    {r : RunResult} (h : process cfg manifest = .ok r) :
    (r.status.workunits.map Prod.fst =
        List.range' 1 r.generated_workunits ∧
      r.status.workunits.length = r.generated_workunits) ∧
    (∀ st', processLines cfg initState manifest = .ok st' →
      (0 < (flushLeftover st').current_workunit_subjobs.length →
        r.status.workunits = (flushLeftover st').workunits ++
          [((flushLeftover st').current_workunit_index,
            publish_result cfg (flushLeftover st').current_workunit_index
              (flushLeftover st').current_workunit_subjobs)] ∧
        r.generated_workunits = (flushLeftover st').current_workunit_index) ∧
      ((flushLeftover st').current_workunit_subjobs = [] →
        r.status.workunits = st'.workunits ∧
        (st'.workunits ≠ [] →
          (r.status.workunits.map Prod.fst).getLast? =
            some r.generated_workunits))) := by
  obtain ⟨st0, hls, hr, _⟩ := process_ok_elim h
  have hinv : idxInv st0 :=
    processLines_inv idxInv (fun st l st2 => idxInv_step st l st2) manifest
      initState st0 hls ⟨by simp [initState], by simp [initState]⟩
  obtain ⟨hidx, hnext⟩ := hinv
  have hflw : (flushLeftover st0).workunits = st0.workunits :=
    flushLeftover_workunits st0
  have hfli : (flushLeftover st0).current_workunit_index =
      st0.current_workunit_index := flushLeftover_index st0
  subst hr
  constructor
  · rw [finishRun_workunits, finishRun_generated]
    by_cases hfin : 0 < (flushLeftover st0).current_workunit_subjobs.length
    · rw [if_pos hfin, if_pos hfin]
      constructor
      · simp only [List.map_append, List.map_cons, List.map_nil, hflw, hfli,
          hidx, hnext]
        have := List.range'_append_1 1 st0.workunits.length 1
        simpa [Nat.add_comm] using this
      · simp [hflw, hfli, hnext]
    · rw [if_neg hfin, if_neg hfin]
      rw [hflw, hfli, hnext]
      exact ⟨by simpa using hidx, by simp⟩
  · intro st' hst'
    have hdet : st0 = st' := by
      have := hls.symm.trans hst'
      simpa using this
    subst hdet
    constructor
    · intro hfin
      rw [finishRun_workunits, finishRun_generated, if_pos hfin, if_pos hfin]
      exact ⟨rfl, rfl⟩
    · intro hempty
      have hfin : ¬ 0 < (flushLeftover st0).current_workunit_subjobs.length := by
        simp [hempty]
      rw [finishRun_workunits, finishRun_generated, if_neg hfin, if_neg hfin]
      refine ⟨hflw, ?_⟩
      intro hne
      rw [hflw, hfli, hnext, hidx, List.getLast?_range']
      have hlen0 : st0.workunits.length ≠ 0 := by
        simpa [List.length_eq_zero] using hne
      rw [if_neg hlen0]
      congr 1
      omega

/-- C5: in the final status artifact every singleton subjob holds exactly
one collection whose count meets `ligands_todo_per_queue`, and every
sealed leftover subjob was sealed at an accumulated count meeting the
threshold, except possibly the single end-of-stream-flushed leftover.
The first three conjuncts bound every subjob other than the last subjob
of the last workunit; the final conjunct ties the one remaining position
to the flush: when the run ends with a zero leftover accumulator (no
flush) every sealed leftover in the artifact, the last one included,
meets the threshold, and when the accumulator is positive the last
subjob of the last workunit is exactly the flushed leftover subjob, so
the only subjob ever exempt from the bound is the end-of-stream flush. -/
theorem claim_C5 {cfg : Config} {manifest : List (String × Nat)}
    {r : RunResult} (h : process cfg manifest = .ok r) :
    (∀ w ∈ r.status.workunits, ∀ t ∈ (Prod.snd w).subjobs, ∀ c sj,
      t = (.singletonTag c, sj) →
        cfg.ligandsTodoPerQueue ≤ c ∧ ∃ k rec, sj = [(k, rec)] ∧
          CollectionRecord.ligand_count rec = c) ∧
    (∀ w ∈ r.status.workunits.dropLast, ∀ t ∈ (Prod.snd w).subjobs,
      ∀ lc sj, t = (.leftoverTag lc, sj) →
        cfg.ligandsTodoPerQueue ≤ lc) ∧
    (∀ w, r.status.workunits.getLast? = some w →
      ∀ t ∈ (Prod.snd w).subjobs.dropLast, ∀ lc sj,
        t = (.leftoverTag lc, sj) → cfg.ligandsTodoPerQueue ≤ lc) ∧
    (∀ st', processLines cfg initState manifest = .ok st' →
      (st'.leftover_count = 0 →
        ∀ w ∈ r.status.workunits, ∀ t ∈ (Prod.snd w).subjobs, ∀ lc sj,
          t = (.leftoverTag lc, sj) → cfg.ligandsTodoPerQueue ≤ lc) ∧
      (0 < st'.leftover_count →
        ∀ w, r.status.workunits.getLast? = some w →
          (Prod.snd w).subjobs.getLast? =
            some (.leftoverTag st'.leftover_count, st'.leftover_subjob))) := by
  obtain ⟨st0, hls, hr, hcase⟩ := process_ok_elim h
  have hinv : tagInv cfg.ligandsTodoPerQueue st0 :=
    processLines_inv (tagInv cfg.ligandsTodoPerQueue) (tagInv_step rfl)
      manifest initState st0 hls
      ⟨by simp [initState], by simp [initState]⟩
  obtain ⟨hcur, hpub⟩ := hinv
  have hsingle : ∀ t : SubjobTag × Subjob,
      tagOk cfg.ligandsTodoPerQueue t → ∀ c sj, t = (.singletonTag c, sj) →
        cfg.ligandsTodoPerQueue ≤ c ∧ ∃ k rec, sj = [(k, rec)] ∧
          CollectionRecord.ligand_count rec = c := by
    intro t ht c sj hteq
    subst hteq
    exact ht
  have hleft : ∀ t : SubjobTag × Subjob,
      tagOk cfg.ligandsTodoPerQueue t → ∀ lc sj, t = (.leftoverTag lc, sj) →
        cfg.ligandsTodoPerQueue ≤ lc := by
    intro t ht lc sj hteq
    subst hteq
    exact ht
  subst hr
  rw [finishRun_workunits]
  have hflw : (flushLeftover st0).workunits = st0.workunits :=
    flushLeftover_workunits st0
  by_cases hfin : 0 < (flushLeftover st0).current_workunit_subjobs.length
  · rw [if_pos hfin]
    have hmode : cfg.jobStorageMode = "s3" ∨ cfg.jobStorageMode = "sharedfs" := by
      rcases hcase with hman | hmode
      · exfalso
        subst hman
        simp only [processLines, Except.ok.injEq] at hls
        subst hls
        rcases flushLeftover_cases initState with ⟨_, hfl⟩ | ⟨hpos, _⟩
        · rw [hfl] at hfin
          simp [initState] at hfin
        · exact absurd hpos (by decide)
      · exact hmode
    refine ⟨?_, ?_, ?_, ?_⟩
    · intro w hw t ht
      rcases List.mem_append.mp hw with hw | hw
      · exact hsingle t (hpub w (hflw ▸ hw) t ht)
      · simp only [List.mem_singleton] at hw
        subst hw
        simp only [publish_result_subjobs hmode] at ht
        rcases flushLeftover_cases st0 with ⟨_, hfl⟩ | ⟨_, hfl⟩
        · rw [hfl] at ht
          exact hsingle t (hcur t ht)
        · rw [hfl] at ht
          simp only [List.mem_append, List.mem_singleton] at ht
          rcases ht with ht | ht
          · exact hsingle t (hcur t ht)
          · subst ht
            intro c sj hteq
            exact absurd hteq (by simp)
    · intro w hw
      rw [List.dropLast_concat] at hw
      exact fun t ht => hleft t (hpub w (hflw ▸ hw) t ht)
    · intro w hw t ht
      rw [List.getLast?_concat] at hw
      injection hw with hw
      subst hw
      simp only [publish_result_subjobs hmode] at ht
      rcases flushLeftover_cases st0 with ⟨_, hfl⟩ | ⟨_, hfl⟩
      · rw [hfl] at ht
        exact hleft t (hcur t (List.dropLast_subset _ ht))
      · rw [hfl] at ht
        simp only [List.dropLast_concat] at ht
        exact hleft t (hcur t ht)
    · intro st' hst'
      have hdet : st0 = st' := by
        have := hls.symm.trans hst'
        simpa using this
      subst hdet
      constructor
      · intro hz
        rcases flushLeftover_cases st0 with ⟨_, hfl⟩ | ⟨hp2, _⟩
        · intro w hw t ht lc sj hteq
          rcases List.mem_append.mp hw with hw | hw
          · exact hleft t (hpub w (hflw ▸ hw) t ht) lc sj hteq
          · simp only [List.mem_singleton] at hw
            subst hw
            simp only [publish_result_subjobs hmode] at ht
            rw [hfl] at ht
            exact hleft t (hcur t ht) lc sj hteq
        · omega
      · intro hp1
        rcases flushLeftover_cases st0 with ⟨hz2, _⟩ | ⟨_, hfl⟩
        · omega
        · intro w hw
          rw [List.getLast?_concat] at hw
          injection hw with hw
          subst hw
          simp only [publish_result_subjobs hmode]
          rw [hfl]
          exact List.getLast?_concat _
  · rw [if_neg hfin]
    rw [hflw]
    refine ⟨?_, ?_, ?_, ?_⟩
    · exact fun w hw t ht => hsingle t (hpub w hw t ht)
    · exact fun w hw t ht =>
        hleft t (hpub w (List.dropLast_subset _ hw) t ht)
    · intro w hw t ht
      exact hleft t
        (hpub w (List.mem_of_getLast?_eq_some hw) t (List.dropLast_subset _ ht))
    · intro st' hst'
      have hdet : st0 = st' := by
        have := hls.symm.trans hst'
        simpa using this
      subst hdet
      constructor
      · intro _ w hw t ht lc sj hteq
        exact hleft t (hpub w hw t ht) lc sj hteq
      · intro hp1
        exfalso
        rcases flushLeftover_cases st0 with ⟨hz2, _⟩ | ⟨_, hfl⟩
        · omega
        · apply hfin
          rw [hfl]
          simp

theorem subjobKeys_append (l : Subjob) (k : String) (v : CollectionRecord) :
    subjobKeys (l ++ [(k, v)]) = subjobKeys l + {k} := by
  simp [subjobKeys, ← Multiset.coe_add, ← Multiset.coe_singleton]

theorem wuKeys_append (l : List (SubjobTag × Subjob)) (t : SubjobTag × Subjob) :
    wuKeys (l ++ [t]) = wuKeys l + subjobKeys t.2 := by
  simp [wuKeys]

theorem publishedKeys_append (ws : List (Nat × PublishResult))
    (w : Nat × PublishResult) :
    publishedKeys (ws ++ [w]) = publishedKeys ws + wuKeys (Prod.snd w).subjobs := by
  simp [publishedKeys]

theorem subjobCount_append (l : Subjob) (k : String) (v : CollectionRecord) :
    subjobCount (l ++ [(k, v)]) = subjobCount l + v.ligand_count := by
  simp [subjobCount]

theorem subjob_empty_of_count_zero {sj : Subjob} (hsum : subjobCount sj = 0)
    (hpos : ∀ p ∈ sj, 0 < (Prod.snd p).ligand_count) : sj = [] := by
  cases sj with
  | nil => rfl
  | cons p l =>
    exfalso
    have h1 := hpos p (List.mem_cons_self p l)
    simp [subjobCount] at hsum
    omega

/-- The key bookkeeping of the manifest loop: under distinct full names
and positive counts, the keys held in the loop state grow by exactly the
keys of the processed lines, the leftover accumulator always equals the
summed count of the leftover subjob, and all its entries stay positive. -/
theorem processLines_keys {cfg : Config} :
    ∀ (lines : List (String × Nat)) (st st' : BState),
      processLines cfg st lines = .ok st' →
      (stateKeys st + (lines.map Prod.fst : List String)).Nodup →
      (∀ l ∈ lines, 0 < l.2) →
      subjobCount st.leftover_subjob = st.leftover_count →
      (∀ p ∈ st.leftover_subjob, 0 < (Prod.snd p).ligand_count) →
      stateKeys st' = stateKeys st + (lines.map Prod.fst : List String) ∧
      subjobCount st'.leftover_subjob = st'.leftover_count ∧
      (∀ p ∈ st'.leftover_subjob, 0 < (Prod.snd p).ligand_count) := by
  intro lines
  induction lines with
  | nil =>
    intro st st' h hnd hpos hsum hlpos
    simp only [processLines, Except.ok.injEq] at h
    subst h
    exact ⟨by simp, hsum, hlpos⟩
  | cons l ls ih =>
    intro st st' h hnd hpos hsum hlpos
    obtain ⟨st1, hl, hrest⟩ := processLines_cons_elim h
    obtain ⟨nm, num, stMid, _, hpc, hsc⟩ := processLine_ok_elim hl
    obtain ⟨hmode, rec, hname, hcount, hcases⟩ := processCollection_ok_elim hpc
    have hcoe : ((l :: ls).map Prod.fst : List String) =
        (l.1 ::ₘ (ls.map Prod.fst : List String) : Multiset String) := by
      simp [Multiset.cons_coe]
    rw [hcoe] at hnd
    have hfresh : l.1 ∉ stateKeys st := by
      intro hmem
      have hd := (Multiset.nodup_add.mp hnd).2.2
      exact (Multiset.disjoint_left.mp hd) hmem (Multiset.mem_cons_self _ _)
    have hk_not : l.1 ∉ st.leftover_subjob.map Prod.fst := by
      intro hmem
      apply hfresh
      have : l.1 ∈ subjobKeys st.leftover_subjob := by
        simpa [subjobKeys] using hmem
      simp [stateKeys, Multiset.mem_add, this]
    have hins : dictInsert st.leftover_subjob l.1 rec =
        st.leftover_subjob ++ [(l.1, rec)] := dictInsert_not_mem rec hk_not
    have hkeysMid : stateKeys stMid = stateKeys st + {l.1} ∧
        subjobCount stMid.leftover_subjob = stMid.leftover_count ∧
        (∀ p ∈ stMid.leftover_subjob, 0 < (Prod.snd p).ligand_count) := by
      rcases hcases with ⟨_, hstM⟩ | ⟨_, _, hstM⟩ | ⟨_, _, hstM⟩ <;> subst hstM
      · refine ⟨?_, hsum, hlpos⟩
        simp only [stateKeys, wuKeys_append]
        simp [subjobKeys]
        abel
      · refine ⟨?_, by simp [generate_subjob_init, subjobCount], by
          simp [generate_subjob_init]⟩
        simp only [stateKeys, wuKeys_append, hins, subjobKeys_append]
        simp only [subjobKeys, generate_subjob_init, List.map_nil,
          Multiset.coe_nil]
        abel
      · refine ⟨?_, ?_, ?_⟩
        · simp only [stateKeys, hins, subjobKeys_append]
          abel
        · simp only [hins, subjobCount_append, hsum, hcount]
        · intro p hp
          simp only [hins, List.mem_append, List.mem_singleton] at hp
          rcases hp with hp | hp
          · exact hlpos p hp
          · subst hp
            simp only [hcount]
            exact hpos l (List.mem_cons_self l ls)
    have hkeys1 : stateKeys st1 = stateKeys st + {l.1} ∧
        subjobCount st1.leftover_subjob = st1.leftover_count ∧
        (∀ p ∈ st1.leftover_subjob, 0 < (Prod.snd p).ligand_count) := by
      obtain ⟨m', _, hsc2⟩ := sealCheck_ok_elim hsc
      rcases hsc2 with ⟨_, hst1⟩ | ⟨_, hst1⟩ <;> subst hst1
      · refine ⟨?_, hkeysMid.2.1, hkeysMid.2.2⟩
        rw [← hkeysMid.1]
        simp only [stateKeys, publishedKeys_append,
          publish_result_subjobs hmode]
        simp only [wuKeys, List.map_nil, List.sum_nil]
        abel
      · exact hkeysMid
    have hnd1 : (stateKeys st1 + (ls.map Prod.fst : List String)).Nodup := by
      have heq : stateKeys st1 + (ls.map Prod.fst : List String) =
          stateKeys st + (l.1 ::ₘ (ls.map Prod.fst : List String)) := by
        rw [hkeys1.1, ← Multiset.singleton_add]
        abel
      rw [heq]
      exact hnd
    have hrec := ih st1 st' hrest hnd1 (fun x hx => hpos x (List.mem_cons_of_mem l hx))
      hkeys1.2.1 hkeys1.2.2
    refine ⟨?_, hrec.2.1, hrec.2.2⟩
    rw [hrec.1, hkeys1.1, hcoe, ← Multiset.singleton_add]
    abel

/-- C4: for a manifest with distinct full names and positive counts, the
multiset of collection keys recorded across all subjobs of all workunits
in the final status artifact is exactly the multiset of manifest keys, and
each manifest collection occurs exactly once (so it lies in exactly one
subjob of exactly one workunit; in particular a trailing leftover subjob
with non-zero accumulated count is sealed into the final workunit rather
than discarded). -/
theorem claim_C4 {cfg : Config} {manifest : List (String × Nat)}
    {r : RunResult} (h : process cfg manifest = .ok r)
    (hnodup : (manifest.map Prod.fst).Nodup)
    (hpos : ∀ l ∈ manifest, 0 < l.2) :
    publishedKeys r.status.workunits =
      (manifest.map Prod.fst : List String) ∧
    ∀ k ∈ manifest.map Prod.fst,
      Multiset.count k (publishedKeys r.status.workunits) = 1 := by
  obtain ⟨st0, hls, hr, hcase⟩ := process_ok_elim h
  have h0 : stateKeys initState = 0 := by
    simp [stateKeys, initState, publishedKeys, wuKeys, subjobKeys,
      generate_subjob_init]
  have hnd0 : (stateKeys initState +
      (manifest.map Prod.fst : List String)).Nodup := by
    rw [h0, zero_add]
    exact Multiset.coe_nodup.mpr hnodup
  have hmain := processLines_keys manifest initState st0 hls hnd0 hpos
    (by simp [initState, generate_subjob_init, subjobCount])
    (by simp [initState, generate_subjob_init])
  obtain ⟨hkeys, hsum, hlpos⟩ := hmain
  rw [h0, zero_add] at hkeys
  subst hr
  have hart : publishedKeys (finishRun cfg st0).status.workunits =
      stateKeys st0 := by
    rw [finishRun_workunits]
    by_cases hfin : 0 < (flushLeftover st0).current_workunit_subjobs.length
    · rw [if_pos hfin]
      have hmode : cfg.jobStorageMode = "s3" ∨
          cfg.jobStorageMode = "sharedfs" := by
        rcases hcase with hman | hmode
        · exfalso
          subst hman
          simp only [processLines, Except.ok.injEq] at hls
          subst hls
          rcases flushLeftover_cases initState with ⟨_, hfl⟩ | ⟨hpos0, _⟩
          · rw [hfl] at hfin
            simp [initState] at hfin
          · exact absurd hpos0 (by decide)
        · exact hmode
      rw [publishedKeys_append, publish_result_subjobs hmode]
      rcases flushLeftover_cases st0 with ⟨hz, hfl⟩ | ⟨_, hfl⟩
      · have hL : st0.leftover_subjob = [] :=
          subjob_empty_of_count_zero (by rw [hsum, hz]) hlpos
        rw [hfl]
        simp [stateKeys, hL, subjobKeys]
      · rw [hfl]
        simp only [wuKeys_append]
        simp only [stateKeys]
        abel
    · rw [if_neg hfin]
      rcases flushLeftover_cases st0 with ⟨hz, hfl⟩ | ⟨_, hfl⟩
      · rw [hfl] at hfin
        have hC : st0.current_workunit_subjobs = [] := by
          simpa [List.length_eq_zero] using hfin
        have hL : st0.leftover_subjob = [] :=
          subjob_empty_of_count_zero (by rw [hsum, hz]) hlpos
        rw [hfl]
        simp [stateKeys, hC, hL, wuKeys, subjobKeys]
      · rw [hfl] at hfin
        exfalso
        simp at hfin
  rw [hart, hkeys]
  refine ⟨rfl, ?_⟩
  intro k hk
  exact Multiset.count_eq_one_of_mem (Multiset.coe_nodup.mpr hnodup)
    (Multiset.mem_coe.mpr hk)

/-- C1: per manifest collection, a count at or above
`ligands_todo_per_queue` (equality included) seals a new singleton subjob
holding only that collection into the current workunit; otherwise the
collection is added to the leftover subjob and its count to the
accumulator, and when the accumulator meets the threshold the leftover
subjob is sealed into the current workunit, a fresh leftover subjob
begins, and the accumulator resets to 0. -/
theorem claim_C1 (cfg : Config) (st : BState) (collection_full_name : String)
    (collection_count : Nat) (tranche name number : String)
    (hmode : cfg.jobStorageMode = "s3" ∨ cfg.jobStorageMode = "sharedfs") :
    (cfg.ligandsTodoPerQueue ≤ collection_count →
      ∃ rec : CollectionRecord,
        rec.collection_full_name = collection_full_name ∧
        rec.ligand_count = collection_count ∧
        processCollection cfg st collection_full_name collection_count
            tranche name number =
          .ok { st with current_workunit_subjobs :=
            st.current_workunit_subjobs ++ [(.singletonTag collection_count,
              [(collection_full_name, rec)])] }) ∧
    (collection_count < cfg.ligandsTodoPerQueue →
      ∃ rec : CollectionRecord,
        rec.collection_full_name = collection_full_name ∧
        rec.ligand_count = collection_count ∧
        (cfg.ligandsTodoPerQueue ≤ st.leftover_count + collection_count →
          processCollection cfg st collection_full_name collection_count
              tranche name number =
            .ok { st with
              current_workunit_subjobs := st.current_workunit_subjobs ++
                [(.leftoverTag (st.leftover_count + collection_count),
                  dictInsert st.leftover_subjob collection_full_name rec)]
              leftover_subjob := generate_subjob_init
              leftover_count := 0 }) ∧
        (st.leftover_count + collection_count < cfg.ligandsTodoPerQueue →
          processCollection cfg st collection_full_name collection_count
              tranche name number =
            .ok { st with
              leftover_subjob :=
                dictInsert st.leftover_subjob collection_full_name rec
              leftover_count := st.leftover_count + collection_count })) := by
  rcases hmode with hm | hm
  · refine
      ⟨fun hc => ⟨⟨collection_full_name, tranche, name, number,
          collection_count, .s3Loc cfg.objectStoreDataBucket
            (gen_s3_download_path cfg tranche name number)⟩, rfl, rfl, ?_⟩,
       fun hc => ⟨⟨collection_full_name, tranche, name, number,
          collection_count, .s3Loc cfg.objectStoreDataBucket
            (gen_s3_download_path cfg tranche name number)⟩, rfl, rfl,
          fun hlc => ?_, fun hlc => ?_⟩⟩
    · unfold processCollection
      rw [if_pos hc, add_collection_s3 cfg generate_subjob_init
        collection_full_name collection_count tranche name number hm]
      simp [generate_subjob_init, dictInsert_nil]
    · unfold processCollection
      rw [if_neg (Nat.not_le.mpr hc), add_collection_s3 cfg
        st.leftover_subjob collection_full_name collection_count tranche
        name number hm]
      simp [hlc]
    · unfold processCollection
      rw [if_neg (Nat.not_le.mpr hc), add_collection_s3 cfg
        st.leftover_subjob collection_full_name collection_count tranche
        name number hm]
      simp [Nat.not_le.mpr hlc]
  · refine
      ⟨fun hc => ⟨⟨collection_full_name, tranche, name, number,
          collection_count, .sharedfsLoc
            (gen_sharedfs_path cfg tranche name number)⟩, rfl, rfl, ?_⟩,
       fun hc => ⟨⟨collection_full_name, tranche, name, number,
          collection_count, .sharedfsLoc
            (gen_sharedfs_path cfg tranche name number)⟩, rfl, rfl,
          fun hlc => ?_, fun hlc => ?_⟩⟩
    · unfold processCollection
      rw [if_pos hc, add_collection_sharedfs cfg generate_subjob_init
        collection_full_name collection_count tranche name number hm]
      simp [generate_subjob_init, dictInsert_nil]
    · unfold processCollection
      rw [if_neg (Nat.not_le.mpr hc), add_collection_sharedfs cfg
        st.leftover_subjob collection_full_name collection_count tranche
        name number hm]
      simp [hlc]
    · unfold processCollection
      rw [if_neg (Nat.not_le.mpr hc), add_collection_sharedfs cfg
        st.leftover_subjob collection_full_name collection_count tranche
        name number hm]
      simp [Nat.not_le.mpr hlc]

theorem finishRun_overall (cfg : Config) (st : BState) :
    (finishRun cfg st).status.overall = [] := by
  simp only [finishRun]
  split <;> rfl

theorem finishRun_collections (cfg : Config) (st : BState) :
    (finishRun cfg st).status.collections = [] := by
  simp only [finishRun]
  split <;> rfl

/-- C9: in the final status artifact of every successful run the
`overall` and `collections` namespaces are exactly empty; only
`workunits` is populated. -/
theorem claim_C9 {cfg : Config} {manifest : List (String × Nat)}
    {r : RunResult} (h : process cfg manifest = .ok r) :
    r.status.overall = [] ∧ r.status.collections = [] := by
  obtain ⟨st0, _, hr, _⟩ := process_ok_elim h
  subst hr
  exact ⟨finishRun_overall cfg st0, finishRun_collections cfg st0⟩

/-- C8 (counterexample): with an unknown `job_storage_mode` and an empty
manifest, the run completes normally with exit status 0 and prints
`Generated 0 workunits`; the storage mode is never consulted, so the
claim that every such run terminates with a non-zero exit status is false
as stated. -/
theorem claim_C8_counterexample :
    process wCfgBad [] = .ok ⟨⟨[], [], []⟩, 0⟩ := by
  rfl

/-- C8 (amended): for every run over a nonempty manifest whose
`job_storage_mode` is neither `s3` nor `sharedfs`, processing aborts on
the first collection with exit status 1 after a diagnostic (the
storage-mode message, or the `ValueError` diagnostic if the first name
has no underscore), before any workunit has been packaged or published. -/
theorem claim_C8_amended {cfg : Config} (h1 : cfg.jobStorageMode ≠ "s3")
    (h2 : cfg.jobStorageMode ≠ "sharedfs") (l : String × Nat)
    (ls : List (String × Nat)) :
    ∃ e : RunError, process cfg (l :: ls) = .error e ∧ e.exitCode = 1 ∧
      e.workunitsAtExit = [] ∧
      (e.message =
          "job_storage_mode must be either s3 or sharedfs (currently: "
            ++ cfg.jobStorageMode ++ ")" ∨
       e.message = "ValueError: not enough values to unpack") := by
  have hline : ∃ e : RunError, processLine cfg initState l = .error e ∧
      e.exitCode = 1 ∧ e.workunitsAtExit = [] ∧
      (e.message =
          "job_storage_mode must be either s3 or sharedfs (currently: "
            ++ cfg.jobStorageMode ++ ")" ∨
       e.message = "ValueError: not enough values to unpack") := by
    cases hsp : splitFirstRest '_' l.1 with
    | none =>
      refine ⟨⟨1, "ValueError: not enough values to unpack", []⟩, ?_,
        rfl, rfl, Or.inr rfl⟩
      unfold processLine
      rw [hsp]
      rfl
    | some p =>
      obtain ⟨nm, num⟩ := p
      refine ⟨⟨1, "job_storage_mode must be either s3 or sharedfs (currently: "
          ++ cfg.jobStorageMode ++ ")", []⟩, ?_, rfl, rfl, Or.inl rfl⟩
      have hpc : processCollection cfg initState l.1 l.2 (pySlice l.1 0 2)
          nm num = .error ⟨1,
            "job_storage_mode must be either s3 or sharedfs (currently: "
              ++ cfg.jobStorageMode ++ ")", []⟩ := by
        unfold processCollection
        split
        · rw [add_collection_invalid cfg generate_subjob_init l.1 l.2
            (pySlice l.1 0 2) nm num h1 h2]
          rfl
        · rw [add_collection_invalid cfg initState.leftover_subjob l.1 l.2
            (pySlice l.1 0 2) nm num h1 h2]
          rfl
      unfold processLine
      rw [hsp]
      show (processCollection cfg initState l.1 l.2 (pySlice l.1 0 2)
        nm num).bind (sealCheck cfg) = Except.error ⟨1,
          "job_storage_mode must be either s3 or sharedfs (currently: "
            ++ cfg.jobStorageMode ++ ")", []⟩
      rw [hpc]
      rfl
  obtain ⟨e, he, he1, he2, he3⟩ := hline
  refine ⟨e, ?_, he1, he2, he3⟩
  unfold process processLines
  rw [he]
  rfl

/-- C7 (code behaviour at the failing input): in s3 mode an upload
failure makes `publish_workunit` raise instead of logging and returning a
result: the `except ClientError` clause references a name that is never
imported, so handling the storage exception raises `NameError`, which
propagates to the caller.  In sharedfs mode a copy failure propagates as
well.  On success the s3 path returns the remote key as the claim
describes. -/
theorem claim_C7_code_eval :
    publish_workunit wCfgS3 1 [] .failure .success = .error .nameError ∧
    publish_workunit wCfgS3 1 [] .failure .failure = .error .nameError ∧
    publish_workunit wCfg 1 [] .success .failure = .error .copyError ∧
    publish_workunit wCfgS3 1 [] .success .success =
      .ok (.s3Result [] "jpf/input/tasks/1.tar.gz") := by
  exact ⟨rfl, rfl, rfl, rfl⟩

theorem sha256hex_data_length (s : String) : (sha256hex s).data.length = 64 := by
  show (((sha256Words (utf8Encode s)).map wordToHex).flatten).length = 64
  rw [List.length_flatten, List.map_map]
  have h1 : List.length ∘ wordToHex = fun _ => 8 := by
    funext x
    simp [wordToHex]
  rw [h1, List.map_const', List.sum_const_nat]
  have h2 : (sha256Words (utf8Encode s)).length = 8 := by simp [sha256Words]
  rw [h2]

theorem pySlice_data_length (s : String) (a b : Nat) :
    (pySlice s a b).data.length = min (b - a) (s.data.length - a) := by
  simp [pySlice]

theorem pySlice_append_first4 (s : String) :
    pySlice s 0 2 ++ pySlice s 2 4 = pySlice s 0 4 := by
  apply String.ext
  show (s.data.drop 0).take 2 ++ (s.data.drop 2).take 2 =
    (s.data.drop 0).take 4
  rw [List.drop_zero]
  exact (List.take_add s.data 2 2).symm

/-- C6: the hash-mode collection addressing is pure and deterministic: it
takes the SHA-256 hex digest of the UTF-8 string
`"{name}/{number:07d}"` (number normalised by `int()` and zero-padded to
7 digits), uses the first 4 of its 64 hex characters as two 2-character
shard segments placed immediately after the configured prefix, and two
calls with the same inputs yield byte-identical paths. -/
theorem claim_C6 {cfg : Config}
    (tranche collection_name collection_number : String)
    (hmode : cfg.objectStoreDataCollectionAddressingMode = "hash") :
    (∀ nm : String, ∀ k : Nat, get_collection_hash nm k =
      sha256hex (nm ++ "/" ++ get_formatted_collection_number k)) ∧
    (get_collection_hash collection_name
      (pyIntDigits collection_number)).data.length = 64 ∧
    (pySlice (get_collection_hash collection_name
        (pyIntDigits collection_number)) 0 2).data.length = 2 ∧
    (pySlice (get_collection_hash collection_name
        (pyIntDigits collection_number)) 2 4).data.length = 2 ∧
    pySlice (get_collection_hash collection_name
        (pyIntDigits collection_number)) 0 2 ++
      pySlice (get_collection_hash collection_name
        (pyIntDigits collection_number)) 2 4 =
      pySlice (get_collection_hash collection_name
        (pyIntDigits collection_number)) 0 4 ∧
    (∃ rest : String,
      gen_s3_download_path cfg tranche collection_name collection_number =
        cfg.objectStoreDataCollectionPrefixCfg ++ "/" ++
          pySlice (get_collection_hash collection_name
            (pyIntDigits collection_number)) 0 2 ++ "/" ++
          pySlice (get_collection_hash collection_name
            (pyIntDigits collection_number)) 2 4 ++ "/" ++ rest) ∧
    gen_s3_download_path cfg tranche collection_name collection_number =
      gen_s3_download_path cfg tranche collection_name collection_number := by
  have hlen : (get_collection_hash collection_name
      (pyIntDigits collection_number)).data.length = 64 :=
    sha256hex_data_length _
  refine ⟨fun nm k => rfl, hlen, ?_, ?_, pySlice_append_first4 _, ?_, rfl⟩
  · rw [pySlice_data_length, hlen]
    decide
  · rw [pySlice_data_length, hlen]
    decide
  · simp only [gen_s3_download_path, hmode, if_pos]
    by_cases hid : cfg.objectStoreDataCollectionIdentifier ≠ ""
    · refine ⟨cfg.objectStoreDataCollectionIdentifier ++ "/" ++
        cfg.ligandLibraryFormat ++ "/" ++ collection_name ++ "/" ++
        (get_formatted_collection_number (pyIntDigits collection_number)
          ++ ".tar.gz"), ?_⟩
      rw [if_pos hid]
      simp [joinPath, String.append_assoc]
    · refine ⟨cfg.ligandLibraryFormat ++ "/" ++ collection_name ++ "/" ++
        (get_formatted_collection_number (pyIntDigits collection_number)
          ++ ".tar.gz"), ?_⟩
      rw [if_neg hid]
      simp [joinPath, String.append_assoc]

theorem string_append_right_ne {a b t : String} (h : a ≠ b) :
    a ++ t ≠ b ++ t := by
  intro heq
  apply h
  apply String.ext
  have hd := congrArg String.data heq
  simp only [String.data_append] at hd
  exact List.append_cancel_right hd

/-- C10 (amended): the tranche addressing mode builds the archive filename
from the collection number string exactly as parsed from the manifest,
while hash mode normalises it through `int()` and zero-pads to at least 7
digits; the two modes produce differently formed filenames exactly for
those digit strings `s` with `s` different from its canonical form
`f"{int(s):07d}"` (i.e. for every string that is neither a 7-digit
zero-padded decimal nor a longer decimal without leading zeros). -/
theorem claim_C10_amended {cfgH cfgT : Config} (tranche name s : String)
    (_hdig : s ≠ "" ∧ ∀ c ∈ s.data, c.isDigit)
    (hH : cfgH.objectStoreDataCollectionAddressingMode = "hash")
    (hT : cfgT.objectStoreDataCollectionAddressingMode ≠ "hash") :
    gen_s3_download_path cfgT tranche name s =
      cfgT.objectStoreDataCollectionPrefixCfg ++ "/" ++ tranche ++ "/" ++
        name ++ "/" ++ (s ++ ".tar.gz") ∧
    gen_sharedfs_path cfgT tranche name s =
      cfgT.sharedfsCollectionPath ++ "/" ++ tranche ++ "/" ++ name ++ "/" ++
        (s ++ ".tar.gz") ∧
    (∃ d : String, gen_s3_download_path cfgH tranche name s =
      d ++ "/" ++ (get_formatted_collection_number (pyIntDigits s)
        ++ ".tar.gz")) ∧
    (∃ d : String, gen_sharedfs_path cfgH tranche name s =
      d ++ "/" ++ (get_formatted_collection_number (pyIntDigits s)
        ++ ".tar.gz")) ∧
    (s ≠ get_formatted_collection_number (pyIntDigits s) →
      s ++ ".tar.gz" ≠
        get_formatted_collection_number (pyIntDigits s) ++ ".tar.gz") := by
  refine ⟨?_, ?_, ?_, ?_, fun hne => string_append_right_ne hne⟩
  · simp only [gen_s3_download_path, if_neg hT]
    simp [joinPath, String.append_assoc]
  · simp only [gen_sharedfs_path, if_neg hT]
    simp [joinPath, String.append_assoc]
  · simp only [gen_s3_download_path, hH, if_pos]
    by_cases hid : cfgH.objectStoreDataCollectionIdentifier ≠ ""
    · refine ⟨joinPath [cfgH.objectStoreDataCollectionPrefixCfg,
        pySlice (get_collection_hash name (pyIntDigits s)) 0 2,
        pySlice (get_collection_hash name (pyIntDigits s)) 2 4,
        cfgH.objectStoreDataCollectionIdentifier,
        cfgH.ligandLibraryFormat, name], ?_⟩
      rw [if_pos hid]
    · refine ⟨joinPath [cfgH.objectStoreDataCollectionPrefixCfg,
        pySlice (get_collection_hash name (pyIntDigits s)) 0 2,
        pySlice (get_collection_hash name (pyIntDigits s)) 2 4,
        cfgH.ligandLibraryFormat, name], ?_⟩
      rw [if_neg hid]
  · simp only [gen_sharedfs_path, hH, if_pos]
    by_cases hid : cfgH.objectStoreDataCollectionIdentifier ≠ ""
    · refine ⟨joinPath [cfgH.sharedfsCollectionPath,
        pySlice (get_collection_hash name (pyIntDigits s)) 0 2,
        pySlice (get_collection_hash name (pyIntDigits s)) 2 4,
        cfgH.objectStoreDataCollectionIdentifier,
        cfgH.ligandLibraryFormat, name], ?_⟩
      rw [if_pos hid]
    · refine ⟨joinPath [cfgH.sharedfsCollectionPath,
        pySlice (get_collection_hash name (pyIntDigits s)) 0 2,
        pySlice (get_collection_hash name (pyIntDigits s)) 2 4,
        cfgH.ligandLibraryFormat, name], ?_⟩
      rw [if_neg hid]

/-- C10 (counterexample): for the manifest number string `"12345678"`,
which is not a 7-digit zero-padded decimal, `f"{int(s):07d}"` equals the
raw string, so hash mode and tranche mode build the same archive
filename; the claim that the modes produce differently formed filenames
for every number string that is not a 7-digit zero-padded decimal is
false as stated. -/
theorem claim_C10_counterexample :
    get_formatted_collection_number (pyIntDigits "12345678") = "12345678" ∧
    ("12345678" : String).data.length ≠ 7 ∧
    pathFilename (gen_s3_download_path wCfgHash "AA" "AAAAAAA" "12345678") =
      pathFilename (gen_s3_download_path wCfg "AA" "AAAAAAA" "12345678") ∧
    pathFilename (gen_s3_download_path wCfg "AA" "AAAAAAA" "12345678") =
      "12345678.tar.gz" := by
  exact ⟨rfl, by decide, by rfl, by rfl⟩


/-- Witness for C1 at the concrete configuration and first scenario
collection of the specification. -/
theorem claim_C1_witness :
    (wCfg.jobStorageMode = "s3" ∨ wCfg.jobStorageMode = "sharedfs") ∧
    wCfg.ligandsTodoPerQueue ≤ 150 ∧
    (∃ rec : CollectionRecord,
      rec.collection_full_name = "AAAAAAA_0000001" ∧
      rec.ligand_count = 150 ∧
      processCollection wCfg initState "AAAAAAA_0000001" 150 "AA"
          "AAAAAAA" "0000001" =
        .ok { initState with current_workunit_subjobs :=
          initState.current_workunit_subjobs ++
            [(.singletonTag 150, [("AAAAAAA_0000001", rec)])] }) :=
  ⟨Or.inr rfl, by decide,
    (claim_C1 wCfg initState "AAAAAAA_0000001" 150 "AA" "AAAAAAA"
      "0000001" (Or.inr rfl)).1 (by decide)⟩

/-- Witness for C2 on the specification scenario run. -/
theorem claim_C2_witness :
    maxArrayJobSize wCfg = some 10 ∧ 0 < 10 ∧
    process wCfg wMan = .ok wRun1 ∧
    ∀ w ∈ wRun1.status.workunits,
      0 < (Prod.snd w).subjobs.length ∧ (Prod.snd w).subjobs.length ≤ 10 :=
  ⟨by rfl, by decide, by rfl,
    (@claim_C2 wCfg wMan 10 wRun1 (by rfl) (by decide) (by rfl)).2.1⟩

/-- Witness for C3 on the specification scenario run. -/
theorem claim_C3_witness :
    process wCfg wMan = .ok wRun1 ∧
    (wRun1.status.workunits.map Prod.fst =
        List.range' 1 wRun1.generated_workunits ∧
      wRun1.status.workunits.length = wRun1.generated_workunits) :=
  ⟨by rfl, (@claim_C3 wCfg wMan wRun1 (by rfl)).1⟩

/-- Witness for C4 on the specification scenario run. -/
theorem claim_C4_witness :
    process wCfg wMan = .ok wRun1 ∧ (wMan.map Prod.fst).Nodup ∧
    (∀ l ∈ wMan, 0 < l.2) ∧
    publishedKeys wRun1.status.workunits =
      (wMan.map Prod.fst : List String) :=
  ⟨by rfl, by decide, by decide,
    (@claim_C4 wCfg wMan wRun1 (by rfl) (by decide) (by decide)).1⟩

/-- Witness for C5 on the specification scenario run. -/
theorem claim_C5_witness :
    process wCfg wMan = .ok wRun1 ∧
    ∀ w ∈ wRun1.status.workunits.dropLast, ∀ t ∈ (Prod.snd w).subjobs,
      ∀ lc sj, t = (.leftoverTag lc, sj) →
        wCfg.ligandsTodoPerQueue ≤ lc :=
  ⟨by rfl, (@claim_C5 wCfg wMan wRun1 (by rfl)).2.1⟩

/-- Witness for C6 at a concrete hash-mode configuration. -/
theorem claim_C6_witness :
    wCfgHash.objectStoreDataCollectionAddressingMode = "hash" ∧
    (get_collection_hash "AAAAAAA" (pyIntDigits "0000001")).data.length = 64 ∧
    ∃ rest : String,
      gen_s3_download_path wCfgHash "AA" "AAAAAAA" "0000001" =
        wCfgHash.objectStoreDataCollectionPrefixCfg ++ "/" ++
          pySlice (get_collection_hash "AAAAAAA"
            (pyIntDigits "0000001")) 0 2 ++ "/" ++
          pySlice (get_collection_hash "AAAAAAA"
            (pyIntDigits "0000001")) 2 4 ++ "/" ++ rest :=
  ⟨by rfl, (@claim_C6 wCfgHash "AA" "AAAAAAA" "0000001" (by rfl)).2.1,
    (@claim_C6 wCfgHash "AA" "AAAAAAA" "0000001" (by rfl)).2.2.2.2.2.1⟩

/-- Witness for the amended C8 at a concrete unknown storage mode and a
one-line manifest. -/
theorem claim_C8_amended_witness :
    wCfgBad.jobStorageMode ≠ "s3" ∧ wCfgBad.jobStorageMode ≠ "sharedfs" ∧
    ∃ e : RunError,
      process wCfgBad [("AAAAAAA_0000001", 150)] = .error e ∧
      e.exitCode = 1 ∧ e.workunitsAtExit = [] ∧
      (e.message =
          "job_storage_mode must be either s3 or sharedfs (currently: "
            ++ wCfgBad.jobStorageMode ++ ")" ∨
       e.message = "ValueError: not enough values to unpack") :=
  ⟨by decide, by decide,
    claim_C8_amended (by decide) (by decide) ("AAAAAAA_0000001", 150) []⟩

/-- Witness for C9 on the specification scenario run. -/
theorem claim_C9_witness :
    process wCfg wMan = .ok wRun1 ∧
    wRun1.status.overall = [] ∧ wRun1.status.collections = [] :=
  ⟨by rfl, @claim_C9 wCfg wMan wRun1 (by rfl)⟩

/-- Witness for the amended C10 at a concrete 3-digit number string. -/
theorem claim_C10_amended_witness :
    (("123" : String) ≠ "" ∧ ∀ c ∈ ("123" : String).data, c.isDigit) ∧
    wCfgHash.objectStoreDataCollectionAddressingMode = "hash" ∧
    wCfg.objectStoreDataCollectionAddressingMode ≠ "hash" ∧
    gen_s3_download_path wCfg "AA" "AAAAAAA" "123" =
      wCfg.objectStoreDataCollectionPrefixCfg ++ "/" ++ "AA" ++ "/" ++
        "AAAAAAA" ++ "/" ++ ("123" ++ ".tar.gz") ∧
    ("123" ≠ get_formatted_collection_number (pyIntDigits "123") →
      "123" ++ ".tar.gz" ≠
        get_formatted_collection_number (pyIntDigits "123") ++ ".tar.gz") :=
  ⟨by decide, by rfl, by decide,
    (@claim_C10_amended wCfgHash wCfg "AA" "AAAAAAA" "123" (by decide)
      (by rfl) (by decide)).1,
    (@claim_C10_amended wCfgHash wCfg "AA" "AAAAAAA" "123" (by decide)
      (by rfl) (by decide)).2.2.2.2⟩
